import Mathlib

/-!
Shallow embedding of Verible's language-server symbol-table handler
(`verilog/tools/ls/symbol-table-handler.cc`) and of the URI helpers it
defines, together with proofs about the definition-lookup query layer.

Strings (`absl::string_view`, `std::string`) are embedded as `List Char`;
external collaborators (`VerilogProject`, `SymbolTable::Build/Resolve`,
the parsed-buffer container, the filesystem) are supplied as explicit
environment records, modelled at their interfaces.
-/

namespace Verible

/-- C++ strings / string_views are embedded as lists of characters. -/
abbrev Str := List Char

/-! ## URI / path helpers (`LSPUriToPath`, `PathToLSPUri`) -/

/-- `static constexpr absl::string_view fileschemeprefix = "file://";` -/
def fileSchemePfx : Str := "file://".toList

/-- `LSPUriToPath`: if the URI does not start with `file://` return the
empty string, else return the substring after the prefix. -/
def LSPUriToPath (uri : Str) : Str :=
  if fileSchemePfx.isPrefixOf uri then uri.drop fileSchemePfx.length else []

/-- Whether a POSIX path is absolute (begins with a separator). -/
def isAbsolutePath (p : Str) : Bool := p.head? = some '/'

/-- Modelled from the spec: `std::filesystem::absolute(p)` of the external
filesystem library — "conversion back produces an absolute, OS-normalized
path". `absolute(p)` is `current_path() / p`, which leaves an already
absolute `p` unchanged and prepends the current directory otherwise. -/
def fsAbsolute (cwd p : Str) : Str :=
  if isAbsolutePath p then p else cwd ++ '/' :: p

/-- `PathToLSPUri`: prepend `file://` to the absolutized path. The current
working directory used by `std::filesystem::absolute` is passed explicitly. -/
def PathToLSPUri (cwd path : Str) : Str :=
  fileSchemePfx ++ fsAbsolute cwd path

/-! ## Symbol-table tree -/

/-- Per-node semantic payload (`verilog::SymbolInfo`): a declaration-kind
tag and a non-owning reference to the origin source file, embedded as the
origin's path (`none` for synthetic/root nodes). -/
structure SymbolInfo where
  kind : String
  file_origin : Option Str

/-- `verilog::SymbolTableNode`: a map-tree node. The key is optional (the
root has none); children are keyed by name, listed in map order. -/
inductive SymbolTableNode : Type where
  | mk : Option Str → SymbolInfo → List (Str × SymbolTableNode) → SymbolTableNode

/-- `node->Key()` — `none` at the root. -/
def SymbolTableNode.Key : SymbolTableNode → Option Str
  | .mk k _ _ => k

/-- `node->Value()`. -/
def SymbolTableNode.Value : SymbolTableNode → SymbolInfo
  | .mk _ v _ => v

/-- `node->Children()` in map order. -/
def SymbolTableNode.Children : SymbolTableNode → List (Str × SymbolTableNode)
  | .mk _ _ cs => cs

mutual

/-- Body of `SymbolTableHandler::ScanSymbolTreeForDefinition` for a non-null
context: if the node has a key equal to `symbol` return the node, otherwise
scan the children in order and return the first hit. -/
def scanNode (symbol : Str) (n : SymbolTableNode) : Option SymbolTableNode :=
  match n with
  | .mk k v cs =>
    if k = some symbol then some (SymbolTableNode.mk k v cs)
    else scanChildren symbol cs

/-- The `for (const auto &child : context->Children())` loop of
`ScanSymbolTreeForDefinition`: recurse into each child, returning the first
non-null result. -/
def scanChildren (symbol : Str) : List (Str × SymbolTableNode) → Option SymbolTableNode
  | [] => none
  | (_, c) :: rest =>
    match scanNode symbol c with
    | some res => some res
    | none => scanChildren symbol rest

end

/-- `SymbolTableHandler::ScanSymbolTreeForDefinition(context, symbol)`: a
null context yields null. -/
def ScanSymbolTreeForDefinition (context : Option SymbolTableNode) (symbol : Str) :
    Option SymbolTableNode :=
  match context with
  | none => none
  | some n => scanNode symbol n

mutual

/-- Unscoped pre-order depth-first listing of a tree: the node itself, then
its children's subtrees in map order. -/
def preorder : SymbolTableNode → List SymbolTableNode
  | .mk k v cs => SymbolTableNode.mk k v cs :: preorderChildren cs

/-- Pre-order listing of a children list, in map order. -/
def preorderChildren : List (Str × SymbolTableNode) → List SymbolTableNode
  | [] => []
  | (_, c) :: rest => preorder c ++ preorderChildren rest

end

/-! ## Handler state, collaborators, operations -/

/-- `verilog::VerilogProject`, at its consumed interface: construction data
plus the set of registered source files (relative paths). A fresh project
starts with no registered files; `OpenIncludedFile` registers files. -/
structure VerilogProject where
  root : Str
  includeDirs : List Str
  corpus : Str
  registeredFiles : List Str

/-- The handler's `SymbolTable` instance: bound to the project pointer it
was constructed with, and owning the root `SymbolTableNode`. -/
structure SymbolTable where
  project : Option VerilogProject
  root : SymbolTableNode

/-- The root node a freshly constructed `SymbolTable` owns: no key, no
children, synthetic root info. -/
def emptyRoot : SymbolTableNode :=
  SymbolTableNode.mk none { kind := "root", file_origin := none } []

/-- Line/column pair (`verible::LineColumn`). -/
structure LineColumn where
  line : Nat
  column : Nat

/-- `verible::LineColumnRange`. -/
structure LineColumnRange where
  start : LineColumn
  stop : LineColumn

/-- The origin file's parsed text structure, at its consumed interface:
`GetRangeForText` maps a declared name to its line/column span. -/
structure TextStructureView where
  getRangeForText : Str → LineColumnRange

/-- LSP protocol position (zero-based line/character). -/
structure Position where
  line : Nat
  character : Nat
  deriving DecidableEq

/-- LSP protocol range. -/
structure Range where
  start : Position
  stop : Position
  deriving DecidableEq

/-- LSP protocol location record `{uri, range}`. -/
structure Location where
  uri : Str
  range : Range
  deriving DecidableEq

/-- `verible::lsp::DefinitionParams`: document URI plus position. -/
structure DefinitionParams where
  uri : Str
  position : Position

/-- A parsed buffer, at its consumed interface: token lookup by
line/column. Modelled from the spec: "find the token whose span contains
the requested line/column" — `tokenAt` yields the covering token's text,
or `none` when no token covers the position. -/
structure ParsedBuffer where
  tokenAt : Nat → Nat → Option Str

/-- A buffer tracker (`verilog::BufferTracker`): `current()` is the latest
parse result, null until a parse exists. -/
structure BufferTracker where
  current : Option ParsedBuffer

/-- `verilog::BufferTrackerContainer`: `FindBufferTrackerOrNull` returns
the tracker registered for a URI, or null when none exists. -/
structure BufferTrackerContainer where
  find : Str → Option BufferTracker

/-- The file list parsed out of `verible.filelist`
(`verilog::FileList`): include directories and file paths. -/
structure FileList where
  include_dirs : List Str
  file_paths : List Str

/-- External collaborator behaviour, supplied as an explicit environment:
project path services, per-file text structures, the symbol table's
Build/Resolve passes, `BuildSymbolTable` for one file, the file-list
parser, file opening, the filesystem's directory contents and the current
working directory. Each field embeds one consumed interface named in the
spec's external-interfaces section. -/
structure Env where
  relPathToSource : Str → Str
  resolvedPath : Str → Str
  textStructureOf : Str → Option TextStructureView
  buildAll : VerilogProject → SymbolTableNode → SymbolTableNode × List String
  resolveAll : SymbolTableNode → SymbolTableNode × List String
  buildOne : Str → SymbolTableNode → SymbolTableNode
  parseFileListAt : Str → Option FileList
  openOk : Str → Bool
  hasFileList : Str → Bool
  cwd : Str

/-- `verilog::SymbolTableHandler`'s fields: the owned project, the owned
symbol table, the set of already-processed files, and the dirty flag. -/
structure SymbolTableHandler where
  currproject : Option VerilogProject
  symboltable : SymbolTable
  checkedfiles : List Str
  files_dirty : Bool

/-- `SymbolTableHandler::resetSymbolTable`: clear `checkedfiles` and
construct a fresh `SymbolTable` bound to the current project. -/
def resetSymbolTable (st : SymbolTableHandler) : SymbolTableHandler :=
  { st with
    checkedfiles := []
    symboltable := { project := st.currproject, root := emptyRoot } }

/-- `SymbolTableHandler::setProject(root, include_paths, corpus)`: replace
the owned project with a freshly constructed one and reset the symbol
table. Modelled from the spec: the dirty flag is "set on project
(re)configuration" (the flag's declaration and initialisation live in the
handler's header, outside the shown translation unit). -/
def setProject (root : Str) (include_paths : List Str) (corpus : Str)
    (st : SymbolTableHandler) : SymbolTableHandler :=
  let newproj : VerilogProject :=
    { root := root, includeDirs := include_paths, corpus := corpus,
      registeredFiles := [] }
  let st1 := { st with currproject := some newproj }
  { resetSymbolTable st1 with files_dirty := true }

/-- Observable effects of one `buildProjectSymbolTable` call: how many full
Build+Resolve passes ran, and every Build/Resolve diagnostic logged. -/
structure BuildTrace where
  passes : Nat
  logs : List String

/-- `SymbolTableHandler::buildProjectSymbolTable`: reset, then — only if a
project is configured — Build over the whole registered file set, log each
Build diagnostic, Resolve, log each Resolve diagnostic, and clear the dirty
flag. Without a project it returns right after the reset. -/
def buildProjectSymbolTable (env : Env) (st : SymbolTableHandler) :
    SymbolTableHandler × BuildTrace :=
  let st := resetSymbolTable st
  match st.currproject with
  | none => (st, { passes := 0, logs := [] })
  | some proj =>
    let built := env.buildAll proj st.symboltable.root
    let resolved := env.resolveAll built.1
    ({ st with
        symboltable := { st.symboltable with root := resolved.1 }
        files_dirty := false },
     { passes := 1, logs := built.2 ++ resolved.2 })

/-! ## findDefinition -/

/-- Observable effects of one `findDefinition` call: how many full
Build+Resolve passes ran before answering, and whether
`ScanSymbolTreeForDefinition` was invoked on the symbol table. -/
structure FindTrace where
  passes : Nat
  scanAttempted : Bool

/-- `SymbolTableHandler::findDefinition(params, parsed_buffers)`, embedded
with explicit state passing. The first component is `none` exactly where
the C++ dereferences a null pointer (undefined behaviour — the null
`FindBufferTrackerOrNull` result, or the null `currproject` in
`GetRelativePathToSource`), and `some result` where the function returns
normally. When no token covers the cursor, `FindTokenAt` yields the
sentinel end-of-file token, whose text is empty (modelled from the spec's
parsed-buffer collaborator interface). -/
def findDefinition (env : Env) (params : DefinitionParams)
    (parsed_buffers : BufferTrackerContainer) (st : SymbolTableHandler) :
    Option (List Location) × SymbolTableHandler × FindTrace :=
  let stepped :=
    if st.files_dirty then
      let br := buildProjectSymbolTable env st
      (br.1, br.2.passes)
    else (st, 0)
  let st := stepped.1
  let filepath := LSPUriToPath params.uri
  let q : Option (List Location) × Bool :=
    if filepath = [] then (some [], false)
    else
      match st.currproject with
      | none => (none, false)
      | some proj =>
        let relativepath := env.relPathToSource filepath
        match parsed_buffers.find params.uri with
        | none => (none, false)
        | some tracker =>
          match tracker.current with
          | none => (some [], false)
          | some parsedbuffer =>
            let symbol :=
              (parsedbuffer.tokenAt params.position.line params.position.character).getD []
            if relativepath ∈ proj.registeredFiles then
              match ScanSymbolTreeForDefinition (some st.symboltable.root) symbol with
              | none => (some [], true)
              | some node =>
                match node.Value.file_origin with
                | none => (some [], true)
                | some origin =>
                  let uri := PathToLSPUri env.cwd (env.resolvedPath origin)
                  match env.textStructureOf origin with
                  | none => (some [], true)
                  | some text =>
                    let sl := text.getRangeForText (node.Key.getD [])
                    (some [{ uri := uri,
                             range :=
                               { start := { line := sl.start.line, character := sl.start.column },
                                 stop := { line := sl.stop.line, character := sl.stop.column } } }],
                     true)
            else
              (some [], false)
  (q.1, st, { passes := stepped.2, scanAttempted := q.2 })

/-! ## loadProjectFileList -/

/-- The upward directory walk of `loadProjectFileList`, over the explicit
chain of ancestor directories from the starting directory up to the
filesystem root (modelled from the spec: "walks the directory hierarchy
upward from startDir", stopping at the root, whose parent is itself):
returns the first directory of the chain containing `verible.filelist`,
or `none` when the walk reaches the end of the chain without a hit. -/
def findFileListDir (hasFileList : Str → Bool) : List Str → Option Str
  | [] => none
  | d :: rest => if hasFileList d then some d else findFileListDir hasFileList rest

/-- Observable effects of one `loadProjectFileList` call: whether a found
file list failed to parse, which listed files failed to open (each logged,
then skipped), and which files were incrementally built, in order. -/
structure LoadTrace where
  parseFailed : Bool
  openFailures : List Str
  built : List Str

/-- The `for (auto &incfile : filelist.file_paths)` loop of
`loadProjectFileList`: try to open each listed file through the project; a
failure is logged and skipped, a success registers the file and runs
`buildSymbolTableFor` on it. Returns the updated project, the updated
tree root, and the built/failed file lists in order. -/
def loadFilesLoop (env : Env) (proj : VerilogProject) (root : SymbolTableNode) :
    List Str → VerilogProject × SymbolTableNode × List Str × List Str
  | [] => (proj, root, [], [])
  | f :: rest =>
    if env.openOk f then
      let proj1 := { proj with registeredFiles := proj.registeredFiles ++ [f] }
      let r := loadFilesLoop env proj1 (env.buildOne f root) rest
      (r.1, r.2.1, f :: r.2.2.1, r.2.2.2)
    else
      let r := loadFilesLoop env proj root rest
      (r.1, r.2.1, r.2.2.1, f :: r.2.2.2)

/-- `SymbolTableHandler::loadProjectFileList(current_dir)`: nothing without
a project; walk the ancestor chain for `verible.filelist` and return
unchanged when it is never found; parse it, returning unchanged (logged)
on failure; otherwise register its include directories on the project and
open/build each listed file, skipping (logged) the ones that fail to
open. -/
def loadProjectFileList (env : Env) (chain : List Str) (st : SymbolTableHandler) :
    SymbolTableHandler × LoadTrace :=
  match st.currproject with
  | none => (st, { parseFailed := false, openFailures := [], built := [] })
  | some proj =>
    match findFileListDir env.hasFileList chain with
    | none => (st, { parseFailed := false, openFailures := [], built := [] })
    | some d =>
      match env.parseFileListAt d with
      | none => (st, { parseFailed := true, openFailures := [], built := [] })
      | some filelist =>
        let proj1 := { proj with includeDirs := proj.includeDirs ++ filelist.include_dirs }
        let r := loadFilesLoop env proj1 st.symboltable.root filelist.file_paths
        ({ st with
            currproject := some r.1
            symboltable := { st.symboltable with root := r.2.1 } },
         { parseFailed := false, openFailures := r.2.2.2, built := r.2.2.1 })

/-! ## Concrete sample instances (used to evaluate the definitions) -/

/-- A text structure mapping every name to the span (0,0)-(0,5). -/
def tsSample : TextStructureView :=
  { getRangeForText := fun _ => { start := { line := 0, column := 0 },
                                  stop := { line := 0, column := 5 } } }

/-- A sample file list: one include directory, three files. -/
def flSample : FileList :=
  { include_dirs := ["/p/inc".toList]
    file_paths := ["/p/a.sv".toList, "/p/bad.sv".toList, "/p/b.sv".toList] }

/-- A sample collaborator environment: identity path services, every file
parsed with `tsSample`, Build and Resolve each leaving the tree unchanged
while emitting one diagnostic, a file list under `/p` in which `/p/bad.sv`
fails to open. -/
def envSample : Env :=
  { relPathToSource := fun p => p
    resolvedPath := fun p => p
    textStructureOf := fun _ => some tsSample
    buildAll := fun _ r => (r, ["duplicate declaration of x"])
    resolveAll := fun r => (r, ["unresolved reference y"])
    buildOne := fun _ r => r
    parseFileListAt := fun _ => some flSample
    openOk := fun f => decide (f ≠ "/p/bad.sv".toList)
    hasFileList := fun d => decide (d = "/p".toList)
    cwd := "/cwd".toList }

/-- A sample project with `/x.sv` registered. -/
def projSample : VerilogProject :=
  { root := "/p".toList, includeDirs := [], corpus := []
    registeredFiles := ["/x.sv".toList] }

/-- Handler state: configured project, clean (not dirty), empty tree. -/
def stOpenProj : SymbolTableHandler :=
  { currproject := some projSample
    symboltable := { project := some projSample, root := emptyRoot }
    checkedfiles := []
    files_dirty := false }

/-- Handler state with no configured project and the dirty flag set. -/
def stNoProject : SymbolTableHandler :=
  { currproject := none
    symboltable := { project := none, root := emptyRoot }
    checkedfiles := ["/old.sv".toList]
    files_dirty := true }

/-- A node whose key is the empty string. -/
def emptyKeyNode : SymbolTableNode :=
  SymbolTableNode.mk (some []) { kind := "module", file_origin := some "/p/f.sv".toList } []

/-- A tree whose only child is keyed by the empty string. -/
def emptyKeyTree : SymbolTableNode :=
  SymbolTableNode.mk none { kind := "root", file_origin := none } [([], emptyKeyNode)]

/-- Handler state whose symbol table contains `emptyKeyTree`. -/
def stEmptyKeyTree : SymbolTableHandler :=
  { currproject := some projSample
    symboltable := { project := some projSample, root := emptyKeyTree }
    checkedfiles := []
    files_dirty := false }

/-- A parsed buffer in which no token covers any position. -/
def parsedBufNoTok : ParsedBuffer := { tokenAt := fun _ _ => none }

/-- A tracker whose current parse is `parsedBufNoTok`. -/
def trackerNoTok : BufferTracker := { current := some parsedBufNoTok }

/-- A container tracking every URI with `trackerNoTok`. -/
def bufsNoTok : BufferTrackerContainer := { find := fun _ => some trackerNoTok }

/-- A container with no tracker for any URI. -/
def noBuffers : BufferTrackerContainer := { find := fun _ => none }

/-- A request at (0,0) of `file:///x.sv`. -/
def paramsX : DefinitionParams :=
  { uri := "file:///x.sv".toList, position := { line := 0, character := 0 } }

/-- A request with an unsupported URI scheme. -/
def paramsUntitled : DefinitionParams :=
  { uri := "untitled:///x.sv".toList, position := { line := 0, character := 0 } }

/-- The location the sample environment produces for `/p/f.sv`. -/
def locSample : Location :=
  { uri := "file:///p/f.sv".toList
    range := { start := { line := 0, character := 0 },
               stop := { line := 0, character := 5 } } }

/-- An ancestor chain none of whose directories holds `verible.filelist`. -/
def chainNoFl : List Str := ["/a/b".toList, "/a".toList, "/".toList]

/-- An ancestor chain in which `/p` holds `verible.filelist`. -/
def chainFl : List Str := ["/p/sub".toList, "/p".toList, "/".toList]

/-! ## Theorems -/

mutual

/-- `scanNode` returns the first key-match of the node's pre-order listing. -/
theorem scanNode_eq_find (s : Str) (n : SymbolTableNode) :
    scanNode s n = (preorder n).find? (fun m => decide (m.Key = some s)) := by
  match n with
  | .mk k v cs =>
    rw [scanNode, preorder]
    by_cases h : k = some s
    · rw [if_pos h, List.find?_cons_of_pos]
      simp [SymbolTableNode.Key, h]
    · rw [if_neg h, List.find?_cons_of_neg, scanChildren_eq_find s cs]
      simp [SymbolTableNode.Key, h]

/-- `scanChildren` returns the first key-match of the children's pre-order
listing. -/
theorem scanChildren_eq_find (s : Str) (cs : List (Str × SymbolTableNode)) :
    scanChildren s cs = (preorderChildren cs).find? (fun m => decide (m.Key = some s)) := by
  match cs with
  | [] => rw [scanChildren, preorderChildren]; rfl
  | (a, c) :: rest =>
    rw [scanChildren, preorderChildren, List.find?_append,
      scanNode_eq_find s c, scanChildren_eq_find s rest]
    cases (preorder c).find? (fun m => decide (m.Key = some s)) <;> simp [Option.or]

end

/-- C3: for every symbol-table tree and candidate name,
`ScanSymbolTreeForDefinition` returns the first node with a matching key in
the unscoped pre-order depth-first traversal of the entire tree (node
before children, children in map order) — so in particular it ignores
lexical scoping, returns `none` when no key matches, and returns `none` on
a null context. -/
theorem scan_returns_first_preorder_match :
    (∀ s, ScanSymbolTreeForDefinition none s = none) ∧
    (∀ n s, ScanSymbolTreeForDefinition (some n) s =
      (preorder n).find? (fun m => decide (m.Key = some s))) :=
  ⟨fun _ => rfl, fun n s => scanNode_eq_find s n⟩

/-- C7: `LSPUriToPath` inverts `PathToLSPUri` on every absolute path; a URI
not starting with `file://` maps to the empty path; a URI starting with
`file://` maps to exactly the characters after that prefix. -/
theorem uri_path_roundtrip :
    (∀ cwd P, isAbsolutePath P = true → LSPUriToPath (PathToLSPUri cwd P) = P) ∧
    (∀ uri, fileSchemePfx.isPrefixOf uri = false → LSPUriToPath uri = []) ∧
    (∀ rest, LSPUriToPath (fileSchemePfx ++ rest) = rest) := by
  have hafter : ∀ rest : Str, LSPUriToPath (fileSchemePfx ++ rest) = rest := by
    intro rest
    rw [LSPUriToPath, if_pos, List.drop_left]
    simp
  refine ⟨?_, ?_, hafter⟩
  · intro cwd P hP
    rw [PathToLSPUri, fsAbsolute, if_pos hP]
    exact hafter P
  · intro uri h
    rw [LSPUriToPath, if_neg]
    simp [h]

/-- Witness for C7 at concrete inputs. -/
theorem uri_path_roundtrip_witness :
    (isAbsolutePath "/a/b.sv".toList = true ∧
      LSPUriToPath (PathToLSPUri "/cwd".toList "/a/b.sv".toList) = "/a/b.sv".toList) ∧
    (fileSchemePfx.isPrefixOf "untitled:///x.sv".toList = false ∧
      LSPUriToPath "untitled:///x.sv".toList = []) :=
  ⟨⟨by decide, uri_path_roundtrip.1 "/cwd".toList "/a/b.sv".toList (by decide)⟩,
   ⟨by decide, uri_path_roundtrip.2.1 "untitled:///x.sv".toList (by decide)⟩⟩

/-- C1: evaluating `findDefinition` at a request whose (valid `file://`)
URI has no buffer tracker registered: the code dereferences the null
result of `FindBufferTrackerOrNull` before its own null check on the
parsed buffer — embedded as the `none` (undefined-behaviour) outcome —
instead of returning the empty list with a logged diagnostic. -/
theorem findDefinition_null_tracker_deref :
    (findDefinition envSample paramsX noBuffers stOpenProj).1 = none := by
  decide

/-- C2: after `setProject` marks the handler dirty, the first
`findDefinition` call triggers exactly one full Build+Resolve pass before
answering, and a second call on the resulting state, with no intervening
configuration change, triggers zero additional passes. -/
theorem dirty_flag_contract (env : Env) (root : Str) (incs : List Str) (corpus : Str)
    (st0 : SymbolTableHandler) (params : DefinitionParams) (bufs : BufferTrackerContainer) :
    (findDefinition env params bufs (setProject root incs corpus st0)).2.2.passes = 1 ∧
    (findDefinition env params bufs
      (findDefinition env params bufs (setProject root incs corpus st0)).2.1).2.2.passes = 0 :=
  ⟨rfl, rfl⟩

/-- C4: whenever `findDefinition` returns (does not hit undefined
behaviour), the returned list has length at most one — a single resolved
location on success, the empty list on every failure path. -/
theorem findDefinition_at_most_one (env : Env) (params : DefinitionParams)
    (bufs : BufferTrackerContainer) (st : SymbolTableHandler) (l : List Location)
    (h : (findDefinition env params bufs st).1 = some l) : l.length ≤ 1 := by
  simp only [findDefinition] at h
  repeat' split at h
  all_goals (try injection h with h)
  all_goals (try subst h)
  all_goals simp_all

/-- Witness for C4: the unsupported-scheme request returns `some []`. -/
theorem findDefinition_at_most_one_witness :
    (findDefinition envSample paramsUntitled noBuffers stOpenProj).1 = some [] ∧
    ([] : List Location).length ≤ 1 :=
  ⟨by decide,
   findDefinition_at_most_one envSample paramsUntitled noBuffers stOpenProj [] (by decide)⟩

/-- Counterexample to C5: a request whose position no token covers, against
a symbol table holding a node keyed by the empty string: the handler still
attempts symbol-table resolution (with the EOF token's empty text) and
returns a non-empty result rather than the empty list. -/
theorem no_token_position_counterexample :
    parsedBufNoTok.tokenAt 0 0 = none ∧
    (findDefinition envSample paramsX bufsNoTok stEmptyKeyTree).2.2.scanAttempted = true ∧
    (findDefinition envSample paramsX bufsNoTok stEmptyKeyTree).1 = some [locSample] := by
  refine ⟨rfl, by decide, by decide⟩

/-- C5 as amended: when no token covers the requested position the handler
does not stop — it attempts symbol-table resolution with the EOF token's
empty text; the result is the empty list provided no node of the scanned
tree is keyed by the empty string. -/
theorem findDefinition_no_token_amended (env : Env) (params : DefinitionParams)
    (bufs : BufferTrackerContainer) (st : SymbolTableHandler)
    (proj : VerilogProject) (tracker : BufferTracker) (pb : ParsedBuffer)
    (hdirty : st.files_dirty = false)
    (hproj : st.currproject = some proj)
    (hpath : LSPUriToPath params.uri ≠ [])
    (htracker : bufs.find params.uri = some tracker)
    (hcur : tracker.current = some pb)
    (htok : pb.tokenAt params.position.line params.position.character = none)
    (hreg : env.relPathToSource (LSPUriToPath params.uri) ∈ proj.registeredFiles)
    (hkey : ∀ m ∈ preorder st.symboltable.root, ¬ m.Key = some []) :
    (findDefinition env params bufs st).2.2.scanAttempted = true ∧
    (findDefinition env params bufs st).1 = some [] := by
  have hscan : ScanSymbolTreeForDefinition (some st.symboltable.root) [] = none := by
    rw [ScanSymbolTreeForDefinition, scanNode_eq_find, List.find?_eq_none]
    intro m hm
    simp [hkey m hm]
  simp only [findDefinition, hdirty, if_false, Bool.false_eq_true, if_neg hpath, hproj,
    htracker, hcur, htok, Option.getD_none, if_pos hreg, hscan]
  constructor <;> trivial

/-- Witness for the amended C5: against a tree with no empty key the scan
is attempted and the result is empty. -/
theorem findDefinition_no_token_amended_witness :
    (findDefinition envSample paramsX bufsNoTok stOpenProj).2.2.scanAttempted = true ∧
    (findDefinition envSample paramsX bufsNoTok stOpenProj).1 = some [] :=
  findDefinition_no_token_amended envSample paramsX bufsNoTok stOpenProj projSample
    trackerNoTok parsedBufNoTok rfl rfl (by decide) rfl rfl rfl (by decide) (by decide)

/-- Counterexample to C6: a `buildProjectSymbolTable` call with no
configured project runs zero Build+Resolve passes and leaves the dirty
flag set, so not every call builds, resolves, and clears the flag. -/
theorem build_without_project_counterexample :
    (buildProjectSymbolTable envSample stNoProject).2.passes = 0 ∧
    (buildProjectSymbolTable envSample stNoProject).1.files_dirty = true :=
  ⟨rfl, rfl⟩

/-- C6 as amended: every `buildProjectSymbolTable` call with a configured
project performs a full reset (Build starts from the fresh empty root and
`checkedfiles` is cleared), then Build, then Resolve on Build's output,
logs every Build diagnostic followed by every Resolve diagnostic, and
clears the dirty flag regardless of how many diagnostics were produced. -/
theorem buildProjectSymbolTable_configured (env : Env) (st : SymbolTableHandler)
    (proj : VerilogProject) (h : st.currproject = some proj) :
    (buildProjectSymbolTable env st).1.files_dirty = false ∧
    (buildProjectSymbolTable env st).1.checkedfiles = [] ∧
    (buildProjectSymbolTable env st).1.symboltable.root =
      (env.resolveAll (env.buildAll proj emptyRoot).1).1 ∧
    (buildProjectSymbolTable env st).2.passes = 1 ∧
    (buildProjectSymbolTable env st).2.logs =
      (env.buildAll proj emptyRoot).2 ++ (env.resolveAll (env.buildAll proj emptyRoot).1).2 := by
  simp [buildProjectSymbolTable, resetSymbolTable, h]

/-- Witness for the amended C6, at an environment whose Build and Resolve
each emit a diagnostic. -/
theorem buildProjectSymbolTable_configured_witness :
    (buildProjectSymbolTable envSample stOpenProj).1.files_dirty = false ∧
    (buildProjectSymbolTable envSample stOpenProj).1.checkedfiles = [] ∧
    (buildProjectSymbolTable envSample stOpenProj).1.symboltable.root =
      (envSample.resolveAll (envSample.buildAll projSample emptyRoot).1).1 ∧
    (buildProjectSymbolTable envSample stOpenProj).2.passes = 1 ∧
    (buildProjectSymbolTable envSample stOpenProj).2.logs =
      (envSample.buildAll projSample emptyRoot).2 ++
        (envSample.resolveAll (envSample.buildAll projSample emptyRoot).1).2 :=
  buildProjectSymbolTable_configured envSample stOpenProj projSample rfl

/-- C10: `buildProjectSymbolTable` with no configured project still resets
the symbol table to a fresh empty tree bound to no project and clears the
processed-file set, but runs zero Build+Resolve passes and leaves the
dirty flag exactly as it was — so the handler never becomes Built/Clean
without a project. -/
theorem buildProjectSymbolTable_unconfigured (env : Env) (st : SymbolTableHandler)
    (h : st.currproject = none) :
    (buildProjectSymbolTable env st).1.symboltable.root = emptyRoot ∧
    (buildProjectSymbolTable env st).1.symboltable.project = none ∧
    (buildProjectSymbolTable env st).1.checkedfiles = [] ∧
    (buildProjectSymbolTable env st).2.passes = 0 ∧
    (buildProjectSymbolTable env st).1.files_dirty = st.files_dirty := by
  simp [buildProjectSymbolTable, resetSymbolTable, h]

/-- Witness for C10 at the dirty, unconfigured sample state. -/
theorem buildProjectSymbolTable_unconfigured_witness :
    (buildProjectSymbolTable envSample stNoProject).1.symboltable.root = emptyRoot ∧
    (buildProjectSymbolTable envSample stNoProject).1.symboltable.project = none ∧
    (buildProjectSymbolTable envSample stNoProject).1.checkedfiles = [] ∧
    (buildProjectSymbolTable envSample stNoProject).2.passes = 0 ∧
    (buildProjectSymbolTable envSample stNoProject).1.files_dirty = true :=
  buildProjectSymbolTable_unconfigured envSample stNoProject rfl

/-- If no directory of the chain holds `verible.filelist`, the walk finds
nothing. -/
theorem findFileListDir_eq_none (has : Str → Bool) (chain : List Str)
    (h : ∀ d ∈ chain, has d = false) : findFileListDir has chain = none := by
  induction chain with
  | nil => rfl
  | cons d rest ih =>
    have hd : ¬ (has d = true) := by simp [h d (List.mem_cons_self d rest)]
    rw [findFileListDir, if_neg hd]
    exact ih fun x hx => h x (List.mem_cons_of_mem d hx)

/-- C8: when no ancestor directory up to the filesystem root contains
`verible.filelist`, `loadProjectFileList` returns with the handler state
(in particular the project's include paths and registered file set)
unchanged, nothing built and nothing logged as failed — a no-op, not an
error. -/
theorem loadProjectFileList_no_filelist (env : Env) (chain : List Str)
    (st : SymbolTableHandler)
    (h : ∀ d ∈ chain, env.hasFileList d = false) :
    loadProjectFileList env chain st =
      (st, { parseFailed := false, openFailures := [], built := [] }) := by
  cases hp : st.currproject with
  | none => simp [loadProjectFileList, hp]
  | some proj =>
    simp [loadProjectFileList, hp, findFileListDir_eq_none env.hasFileList chain h]

/-- Witness for C8 on the chain `/a/b`, `/a`, `/`. -/
theorem loadProjectFileList_no_filelist_witness :
    loadProjectFileList envSample chainNoFl stOpenProj =
      (stOpenProj, { parseFailed := false, openFailures := [], built := [] }) :=
  loadProjectFileList_no_filelist envSample chainNoFl stOpenProj (by decide)

/-- The open/build loop of `loadProjectFileList`: files that open
successfully are registered on the project in order and incrementally
built; files that fail to open are recorded as failures and skipped. -/
theorem loadFilesLoop_spec (env : Env) (files : List Str) (proj : VerilogProject)
    (root : SymbolTableNode) :
    loadFilesLoop env proj root files =
      ({ proj with registeredFiles := proj.registeredFiles ++ files.filter env.openOk },
       (files.filter env.openOk).foldl (fun r f => env.buildOne f r) root,
       files.filter env.openOk,
       files.filter fun f => !env.openOk f) := by
  induction files generalizing proj root with
  | nil => simp [loadFilesLoop]
  | cons f rest ih =>
    by_cases hf : env.openOk f = true
    · simp [loadFilesLoop, hf, ih, List.filter_cons]
    · simp [loadFilesLoop, hf, ih, List.filter_cons]

/-- C9: `loadProjectFileList` degrades gracefully — when the found
`verible.filelist` fails to parse, the handler state is unchanged and the
failure is logged; when it parses, the include directories are registered
on the project, every listed file that opens successfully is registered
and incrementally built into the symbol table (in list order), and every
file that fails to open is logged as a failure and skipped without
stopping the loop. -/
theorem loadProjectFileList_graceful (env : Env) (chain : List Str)
    (st : SymbolTableHandler) (proj : VerilogProject) (d : Str) (fl : FileList)
    (hp : st.currproject = some proj)
    (hd : findFileListDir env.hasFileList chain = some d) :
    (env.parseFileListAt d = none →
      loadProjectFileList env chain st =
        (st, { parseFailed := true, openFailures := [], built := [] })) ∧
    (env.parseFileListAt d = some fl →
      (loadProjectFileList env chain st).1.currproject = some
        { proj with
            includeDirs := proj.includeDirs ++ fl.include_dirs,
            registeredFiles := proj.registeredFiles ++ fl.file_paths.filter env.openOk } ∧
      (loadProjectFileList env chain st).1.symboltable.root =
        (fl.file_paths.filter env.openOk).foldl (fun r f => env.buildOne f r)
          st.symboltable.root ∧
      (loadProjectFileList env chain st).2.built = fl.file_paths.filter env.openOk ∧
      (loadProjectFileList env chain st).2.openFailures =
        fl.file_paths.filter fun f => !env.openOk f) := by
  constructor
  · intro hparse
    simp [loadProjectFileList, hp, hd, hparse]
  · intro hparse
    simp [loadProjectFileList, hp, hd, hparse, loadFilesLoop_spec]

/-- Witness for C9: `/p/bad.sv` fails to open and is skipped; `/p/a.sv`
and `/p/b.sv` are registered and built. -/
theorem loadProjectFileList_graceful_witness :
    (loadProjectFileList envSample chainFl stOpenProj).1.currproject = some
      { projSample with
          includeDirs := projSample.includeDirs ++ flSample.include_dirs,
          registeredFiles :=
            projSample.registeredFiles ++ flSample.file_paths.filter envSample.openOk } ∧
    (loadProjectFileList envSample chainFl stOpenProj).1.symboltable.root =
      (flSample.file_paths.filter envSample.openOk).foldl
        (fun r f => envSample.buildOne f r) stOpenProj.symboltable.root ∧
    (loadProjectFileList envSample chainFl stOpenProj).2.built =
      flSample.file_paths.filter envSample.openOk ∧
    (loadProjectFileList envSample chainFl stOpenProj).2.openFailures =
      flSample.file_paths.filter fun f => !envSample.openOk f :=
  (loadProjectFileList_graceful envSample chainFl stOpenProj projSample
    "/p".toList flSample rfl (by decide)).2 rfl

end Verible
